import Mathlib

/-!
Verification development for the tv-tracker application (src/app.js, src/db.js).

The relational store (SQLite tables shows, episodes, user_shows, user_watched,
declared in src/unnamed/part_001 and used by src/app.js) is embedded as lists
of rows; an INSERT OR IGNORE on a primary key is an append guarded by a key
lookup, DELETE and UPDATE are filter and map.  The external TVMaze catalogue
(tmSearchShows, tmGetShow, tmEpisodes) is passed in as function parameters; a
failed HTTP call is the value none.  JavaScript numbers are modelled as exact
naturals / rationals, and timestamps as abstract naturals.
-/

/-- Row of the shows table: id (TVMaze show id, primary key), name, image,
summary. -/
structure ShowRow where
  id : Nat
  name : String
  image : Option String
  summary : Option String
  deriving Repr, DecidableEq

/-- Row of the episodes table: id (TVMaze episode id, primary key), show_id,
season, number, title, airdate, runtime. -/
structure EpisodeRow where
  id : Nat
  show_id : Nat
  season : Option Int
  number : Option Int
  title : String
  airdate : Option String
  runtime : Option Int
  deriving Repr, DecidableEq

/-- Row of the user_shows table, primary key (user_id, show_id). -/
structure UserShowRow where
  user_id : Nat
  show_id : Nat
  deriving Repr, DecidableEq

/-- Row of the user_watched table, primary key (user_id, episode_id);
watched_at is NULL (none) or a timestamp. -/
structure WatchRow where
  user_id : Nat
  episode_id : Nat
  watched_at : Option Nat
  deriving Repr, DecidableEq

/-- The four tables of the store. -/
structure DB where
  shows : List ShowRow
  episodes : List EpisodeRow
  user_shows : List UserShowRow
  user_watched : List WatchRow
  deriving Repr, DecidableEq

def DB.empty : DB := ⟨[], [], [], []⟩

/-- The image field of a TVMaze show payload (showObj.image may be null and
has medium and original variants). -/
structure ImageObj where
  medium : Option String
  original : Option String
  deriving Repr, DecidableEq

/-- JavaScript a || b on nullable strings: the empty string is falsy. -/
def jsOrString (a b : Option String) : Option String :=
  match a with
  | some s => if s = "" then b else some s
  | none => b

/-- A TVMaze show payload as used by addShowToUserLibrary. -/
structure ShowObj where
  id : Nat
  name : String
  image : Option ImageObj
  summary : Option String
  deriving Repr, DecidableEq

/-- A TVMaze episode payload as used by addShowToUserLibrary (ep.name may be
missing, replaced by the empty string at insert time). -/
structure EpInput where
  id : Nat
  season : Option Int
  number : Option Int
  name : Option String
  airdate : Option String
  runtime : Option Int
  deriving Repr, DecidableEq

/-- One element of the tmSearchShows response array (the show field of the
payload; show is a reserved word here, hence the name showObj). -/
structure SearchResult where
  showObj : ShowObj
  deriving Repr, DecidableEq

/-- The values bound in the shows INSERT of addShowToUserLibrary:
showObj.image?.medium || showObj.image?.original || null and
showObj.summary || null. -/
def showRowOf (s : ShowObj) : ShowRow :=
  ⟨s.id, s.name,
    jsOrString (s.image.bind (fun i => i.medium))
      (jsOrString (s.image.bind (fun i => i.original)) none),
    jsOrString s.summary none⟩

/-- The values bound in the episodes INSERT of addShowToUserLibrary; the
show_id column is showObj.id, and ep.name ?? the empty string. -/
def epRowOf (showId : Nat) (ep : EpInput) : EpisodeRow :=
  ⟨ep.id, showId, ep.season, ep.number, ep.name.getD "", ep.airdate, ep.runtime⟩

/-- Whether a shows row with the given primary key exists. -/
def showIdExists (db : DB) (c : Nat) : Bool :=
  db.shows.any (fun r => r.id == c)

/-- Whether an episodes row with the given primary key exists. -/
def epIdExists (db : DB) (c : Nat) : Bool :=
  db.episodes.any (fun r => r.id == c)

/-- Whether a user_shows row with the given primary key exists (the ownership
lookup SELECT 1 FROM user_shows WHERE user_id = ? AND show_id = ?). -/
def linkExists (db : DB) (u sid : Nat) : Bool :=
  db.user_shows.any (fun l => l.user_id == u && l.show_id == sid)

/-- INSERT OR IGNORE INTO shows. -/
def insertShowOrIgnore (db : DB) (r : ShowRow) : DB :=
  if showIdExists db r.id then db else { db with shows := db.shows ++ [r] }

/-- INSERT OR IGNORE INTO episodes. -/
def insertEpisodeOrIgnore (db : DB) (r : EpisodeRow) : DB :=
  if epIdExists db r.id then db else { db with episodes := db.episodes ++ [r] }

/-- INSERT OR IGNORE INTO user_shows. -/
def insertUserShowOrIgnore (db : DB) (u sid : Nat) : DB :=
  if linkExists db u sid then db
  else { db with user_shows := db.user_shows ++ [⟨u, sid⟩] }

/-- The for-loop of addShowToUserLibrary over the fetched episode list. -/
def insertEpisodes (db : DB) (sid : Nat) (eps : List EpInput) : DB :=
  eps.foldl (fun d ep => insertEpisodeOrIgnore d (epRowOf sid ep)) db

/-- addShowToUserLibrary(showObj, userId) from src/app.js.  The tmEpisodes
network call is the parameter fetched (none = the HTTP request failed or
timed out, which in the source throws out of the function).  The returned
Bool is true when the function ran to completion and false when the episode
fetch threw; the DB component is the store as left behind in either case —
note the shows INSERT is executed before the episode fetch. -/
def addShowToUserLibrary (db : DB) (s : ShowObj) (fetched : Option (List EpInput))
    (userId : Nat) : Bool × DB :=
  let db1 := insertShowOrIgnore db (showRowOf s)
  match fetched with
  | none => (false, db1)
  | some eps =>
      let db2 := insertEpisodes db1 s.id eps
      (true, insertUserShowOrIgnore db2 userId s.id)

/-- The SELECT of POST /episode/:id/toggle: first user_watched row for
(user_id, episode_id). -/
def findMark (db : DB) (u e : Nat) : Option WatchRow :=
  db.user_watched.find? (fun w => w.user_id == u && w.episode_id == e)

/-- UPDATE user_watched SET watched_at = t WHERE user_id = ? AND episode_id = ?. -/
def setMark (db : DB) (u e : Nat) (t : Option Nat) : DB :=
  { db with
    user_watched := db.user_watched.map (fun w =>
      if w.user_id == u && w.episode_id == e then { w with watched_at := t } else w) }

/-- POST /episode/:id/toggle from src/app.js: the handler reads the row for
(user, episode), inserts a fresh watched row when absent, clears the
timestamp when set, and sets it to now when null; it returns the new watched
boolean.  It performs no lookup of the episode in episodes and no lookup of
the user in user_shows. -/
def toggleEpisode (db : DB) (u e : Nat) (now : Nat) : Bool × DB :=
  match findMark db u e with
  | none => (true, { db with user_watched := db.user_watched ++ [⟨u, e, some now⟩] })
  | some row =>
      if row.watched_at.isSome then (false, setMark db u e none)
      else (true, setMark db u e (some now))

/-- The ids of the episodes rows belonging to a show (the subquery
SELECT id FROM episodes WHERE show_id = ?). -/
def showEpisodeIds (db : DB) (sid : Nat) : List Nat :=
  (db.episodes.filter (fun e => e.show_id == sid)).map (fun e => e.id)

/-- POST /show/:id/delete from src/app.js: DELETE the callers user_watched
rows whose episode_id is under the show, then DELETE the callers user_shows
row.  Nothing else is touched. -/
def removeShow (db : DB) (u sid : Nat) : DB :=
  let ids := showEpisodeIds db sid
  let db1 := { db with
    user_watched := db.user_watched.filter (fun w =>
      !(w.user_id == u && ids.contains w.episode_id)) }
  { db1 with
    user_shows := db1.user_shows.filter (fun l =>
      !(l.user_id == u && l.show_id == sid)) }

/-- Outcome of GET /show/:id (the rendered episode list and its ordering are
not modelled; the progress numbers are). -/
inductive DetailResult where
  | forbidden
  | notFound
  | ok (s : ShowRow) (total watched pct : Nat)
  deriving Repr, DecidableEq

/-- The per-episode watched flag of the GET /show/:id query:
(uw.watched_at IS NOT NULL) after the LEFT JOIN on (user_id, episode_id). -/
def watchedFlag (db : DB) (u : Nat) (e : EpisodeRow) : Bool :=
  match findMark db u e.id with
  | some w => w.watched_at.isSome
  | none => false

/-- Math.round((watched / total) * 100) for total > 0, with JavaScript
number arithmetic modelled as exact rationals: round-half-up of
100 * watched / total, computed in naturals. -/
def jsRoundPct (watched total : Nat) : Nat :=
  (200 * watched + total) / (2 * total)

/-- GET /show/:id from src/app.js: ownership check against user_shows first
(403), then existence of the shows row (404), then the progress numbers
total, watched and pct over the episodes of the show. -/
def getShowDetail (db : DB) (u sid : Nat) : DetailResult :=
  if !(linkExists db u sid) then .forbidden
  else
    match db.shows.find? (fun s => s.id == sid) with
    | none => .notFound
    | some s =>
        let eps := db.episodes.filter (fun e => e.show_id == sid)
        let total := eps.length
        let watched := (eps.filter (watchedFlag db u)).length
        let pct := if total == 0 then 0 else jsRoundPct watched total
        .ok s total watched pct

/-- Characters removed from both ends by the JavaScript String trim method. -/
def trimChars (cs : List Char) : List Char :=
  ((cs.dropWhile Char.isWhitespace).reverse.dropWhile Char.isWhitespace).reverse

/-- req.body.name.trim(): leading and trailing whitespace removed (an
executable model of the JavaScript trim). -/
def jsTrim (s : String) : String := String.mk (trimChars s.data)

/-- Outcome of POST /add. -/
inductive AddOutcome where
  | invalidInput
  | notFound
  | candidates (rs : List SearchResult)
  | added (sid : Nat)
  | upstreamError
  deriving Repr, DecidableEq

/-- POST /add from src/app.js.  rawName is req.body.name, chosenId the parsed
req.body.showId (none when absent or unparsable; the source guard
if (chosenId) is also false for the parsed value 0).  getShowById models
tmGetShow, search models tmSearchShows and fetchEpisodes models tmEpisodes;
none means the HTTP call threw, which the catch turns into a 500
(upstreamError) after whatever writes already happened. -/
def postAdd (db : DB) (uid : Nat) (rawName : Option String) (chosenId : Option Nat)
    (getShowById : Nat → Option ShowObj) (search : String → Option (List SearchResult))
    (fetchEpisodes : Nat → Option (List EpInput)) : AddOutcome × DB :=
  let namePath : AddOutcome × DB :=
    let name := jsTrim (rawName.getD "")
    if name = "" then (.invalidInput, db)
    else
      match search name with
      | none => (.upstreamError, db)
      | some results =>
          match results with
          | [] => (.notFound, db)
          | [r] =>
              match addShowToUserLibrary db r.showObj (fetchEpisodes r.showObj.id) uid with
              | (false, db1) => (.upstreamError, db1)
              | (true, db1) => (.added r.showObj.id, db1)
          | _ => (.candidates results, db)
  match chosenId with
  | some cid =>
      if cid == 0 then namePath
      else
        match getShowById cid with
        | none => (.upstreamError, db)
        | some s =>
            match addShowToUserLibrary db s (fetchEpisodes s.id) uid with
            | (false, db1) => (.upstreamError, db1)
            | (true, db1) => (.added s.id, db1)
  | none => namePath

/-- The show_id of the episodes row with the given id, when it exists. -/
def episodeShowId (db : DB) (e : Nat) : Option Nat :=
  (db.episodes.find? (fun r => r.id == e)).map (fun r => r.show_id)

/-- Spec invariant (2): every user_watched row belongs to an existing episode
whose show the user has linked. -/
def watchInvB (db : DB) : Bool :=
  db.user_watched.all (fun w =>
    match episodeShowId db w.episode_id with
    | some sid => linkExists db w.user_id sid
    | none => false)

/-- A store holding one show (id 10) with one episode (id 100) and no
user_shows links and no user_watched rows: user 1 does not own show 10. -/
def dbNoLink : DB :=
  ⟨[⟨10, "S", none, none⟩], [⟨100, 10, none, none, "E", none, none⟩], [], []⟩

/-- A store where user 1 has a user_shows link to show id 5 but no shows row
with id 5 exists. -/
def dbLinkNoShow : DB := ⟨[], [], [⟨1, 5⟩], []⟩

/-- C1 counterexample: with an empty store, adding show 1 with a failing
episode fetch leaves the shows table changed — the Show row is inserted
before the episode fetch, so the claim that the Show table is unchanged on
UpstreamUnavailable is false. -/
theorem addShow_failure_cex :
    (addShowToUserLibrary DB.empty ⟨1, "A", none, none⟩ none 7).1 = false ∧
    ¬ ((addShowToUserLibrary DB.empty ⟨1, "A", none, none⟩ none 7).2.shows
        = DB.empty.shows) := by
  decide

/-- C1 (amended): when the episode fetch fails, addShowToUserLibrary reports
the failure and leaves the episodes, user_shows and user_watched tables
unchanged; the only possible change is the insertion of the single Show row
for the requested external id, which the source executes before the fetch. -/
theorem addShow_upstream_failure (db : DB) (s : ShowObj) (u : Nat) :
    (addShowToUserLibrary db s none u).1 = false ∧
    (addShowToUserLibrary db s none u).2.episodes = db.episodes ∧
    (addShowToUserLibrary db s none u).2.user_shows = db.user_shows ∧
    (addShowToUserLibrary db s none u).2.user_watched = db.user_watched ∧
    ((addShowToUserLibrary db s none u).2.shows = db.shows ∨
      (addShowToUserLibrary db s none u).2.shows = db.shows ++ [showRowOf s]) := by
  unfold addShowToUserLibrary insertShowOrIgnore
  by_cases h : showIdExists db (showRowOf s).id <;> simp [h]

/-- C2: the source toggle handler performs no ownership check — user 1 does
not own show 10 (no user_shows row), episode 100 belongs to show 10, yet
toggling creates a user_watched row and returns watched = true instead of
Forbidden with no write. -/
theorem toggle_without_ownership_writes :
    linkExists dbNoLink 1 10 = false ∧
    episodeShowId dbNoLink 100 = some 10 ∧
    toggleEpisode dbNoLink 1 100 5
      = (true, { dbNoLink with user_watched := [⟨1, 100, some 5⟩] }) := by
  decide

/-- C3: the WatchMark-visibility invariant is not preserved — it holds in
dbNoLink, and a single toggle by user 2 (who owns nothing) produces a state
containing a user_watched row with no matching user_shows link. -/
theorem toggle_breaks_watch_invariant :
    watchInvB dbNoLink = true ∧
    watchInvB (toggleEpisode dbNoLink 2 100 7).2 = false := by
  decide

/-- C6: toggling an episode id with no episodes row does not report NotFound;
the handler inserts a user_watched row for the nonexistent episode and
returns watched = true. -/
theorem toggle_unknown_episode_writes :
    epIdExists DB.empty 999 = false ∧
    toggleEpisode DB.empty 3 999 1
      = (true, { DB.empty with user_watched := [⟨3, 999, some 1⟩] }) := by
  decide

/-- C10: in getShowDetail the ownership check precedes the existence check —
without a user_shows link the result is Forbidden (even when no shows row
exists at all), and NotFound is returned exactly when the link exists but
the shows row is absent. -/
theorem getShowDetail_ownership_before_existence (db : DB) (u sid : Nat) :
    (linkExists db u sid = false → getShowDetail db u sid = .forbidden) ∧
    (linkExists db u sid = true →
      db.shows.find? (fun s => s.id == sid) = none →
      getShowDetail db u sid = .notFound) ∧
    (getShowDetail db u sid = .notFound →
      linkExists db u sid = true ∧ db.shows.find? (fun s => s.id == sid) = none) := by
  refine ⟨fun h => by simp [getShowDetail, h], fun h hf => by simp [getShowDetail, h, hf], ?_⟩
  intro h
  cases hl : linkExists db u sid with
  | false => simp [getShowDetail, hl] at h
  | true =>
      cases hf : db.shows.find? (fun s => s.id == sid) with
      | none => exact ⟨rfl, rfl⟩
      | some s => simp [getShowDetail, hl, hf] at h

/-- A store with show 10 and its episode 100, owned by users 1 and 2, each
holding a watched mark on episode 100. -/
def db5 : DB :=
  ⟨[⟨10, "S", none, none⟩], [⟨100, 10, none, none, "E", none, none⟩],
    [⟨1, 10⟩, ⟨2, 10⟩], [⟨1, 100, some 2⟩, ⟨2, 100, some 3⟩]⟩

/-- C5: removeShow deletes exactly the callers marks under the show and the
callers link; the shows and episodes tables are untouched and every other
users user_shows and user_watched rows keep their exact multiplicities. -/
theorem removeShow_frame (db : DB) (u sid : Nat) :
    (removeShow db u sid).shows = db.shows ∧
    (removeShow db u sid).episodes = db.episodes ∧
    (∀ w ∈ (removeShow db u sid).user_watched,
      ¬(w.user_id = u ∧ w.episode_id ∈ showEpisodeIds db sid)) ∧
    (∀ l ∈ (removeShow db u sid).user_shows, ¬(l.user_id = u ∧ l.show_id = sid)) ∧
    (∀ w : WatchRow, w.user_id ≠ u →
      (removeShow db u sid).user_watched.count w = db.user_watched.count w) ∧
    (∀ l : UserShowRow, l.user_id ≠ u →
      (removeShow db u sid).user_shows.count l = db.user_shows.count l) := by
  refine ⟨rfl, rfl, ?_, ?_, ?_, ?_⟩
  · intro w hw hc
    have h := (List.mem_filter.mp hw).2
    simp [List.contains, hc.1, hc.2] at h
  · intro l hl hc
    have h := (List.mem_filter.mp hl).2
    simp [hc.1, hc.2] at h
  · intro w hne
    apply List.count_filter
    simp [hne]
  · intro l hne
    apply List.count_filter
    simp [hne]

/-- C5 witness: in db5, user 1 removing show 10 leaves the mark and the link
of user 2 with unchanged multiplicity. -/
theorem removeShow_frame_witness :
    (removeShow db5 1 10).user_watched.count ⟨2, 100, some 3⟩
      = db5.user_watched.count ⟨2, 100, some 3⟩ ∧
    (removeShow db5 1 10).user_shows.count ⟨2, 10⟩ = db5.user_shows.count ⟨2, 10⟩ :=
  ⟨(removeShow_frame db5 1 10).2.2.2.2.1 ⟨2, 100, some 3⟩ (by decide),
    (removeShow_frame db5 1 10).2.2.2.2.2 ⟨2, 10⟩ (by decide)⟩

/-- Whether the store records (user, episode) as watched: a user_watched row
exists and its timestamp is non-null. -/
def isWatched (db : DB) (u e : Nat) : Bool :=
  match findMark db u e with
  | some w => w.watched_at.isSome
  | none => false

/-- Mapping a function that does not change whether an element matches
commutes with the first-row lookup, and the match-preserving map agrees on
matching elements with a second function. -/
theorem find?_map_of_pred {α : Type} (f g : α → α) (p : α → Bool)
    (hp : ∀ x, p (f x) = p x) (hg : ∀ x, p x = true → f x = g x) (l : List α) :
    (l.map f).find? p = ((l.find? p).map g) := by
  induction l with
  | nil => rfl
  | cons a l ih =>
      cases h : p a with
      | true =>
          have hfa : p (f a) = true := (hp a).trans h
          rw [List.map_cons, List.find?_cons_of_pos _ hfa, List.find?_cons_of_pos _ h,
            Option.map_some', hg a h]
      | false =>
          have hfa : ¬ p (f a) = true := by rw [(hp a).trans h]; exact Bool.false_ne_true
          have ha : ¬ p a = true := by rw [h]; exact Bool.false_ne_true
          rw [List.map_cons, List.find?_cons_of_neg _ hfa, List.find?_cons_of_neg _ ha, ih]

/-- The row-update function of the toggle handler UPDATE. -/
def toggleUpd (u e : Nat) (t : Option Nat) (w : WatchRow) : WatchRow :=
  if w.user_id == u && w.episode_id == e then { w with watched_at := t } else w

/-- The (user_id, episode_id) match predicate of the toggle handler. -/
def markKey (u e : Nat) (w : WatchRow) : Bool :=
  w.user_id == u && w.episode_id == e

/-- The UPDATE of the toggle handler commutes with the row lookup: the found
row is the old row with its timestamp replaced. -/
theorem findMark_setMark (db : DB) (u e : Nat) (t : Option Nat) :
    findMark (setMark db u e t) u e
      = (findMark db u e).map (fun w => { w with watched_at := t }) := by
  have hp : ∀ w, markKey u e (toggleUpd u e t w) = markKey u e w := by
    intro w
    simp only [markKey, toggleUpd]
    by_cases h : (w.user_id == u && w.episode_id == e) = true
    · rw [if_pos h]
    · rw [if_neg h]
  have hg : ∀ w, markKey u e w = true → toggleUpd u e t w = { w with watched_at := t } := by
    intro w hw
    simp only [markKey] at hw
    simp only [toggleUpd]
    rw [if_pos hw]
  exact find?_map_of_pred (toggleUpd u e t) (fun w => { w with watched_at := t })
    (markKey u e) hp hg db.user_watched

/-- C7: for a pair in the users library the toggle handler is the two-state
machine of the spec: from Unwatched (no row or null timestamp) it returns
true and the rows timestamp becomes now; from Watched it returns false and
the timestamp becomes null; the returned boolean equals the post-state; and
the row count grows only when no row existed (a row is updated in place,
never deleted). -/
theorem toggleEpisode_state_machine (db : DB) (u e : Nat) (now : Nat)
    (_hown : ∃ sid, episodeShowId db e = some sid ∧ linkExists db u sid = true) :
    (isWatched db u e = false →
      (toggleEpisode db u e now).1 = true ∧
      findMark (toggleEpisode db u e now).2 u e = some ⟨u, e, some now⟩) ∧
    (isWatched db u e = true →
      (toggleEpisode db u e now).1 = false ∧
      findMark (toggleEpisode db u e now).2 u e = some ⟨u, e, none⟩) ∧
    ((toggleEpisode db u e now).1 = isWatched (toggleEpisode db u e now).2 u e) ∧
    ((toggleEpisode db u e now).2.user_watched.length
      = db.user_watched.length + (if findMark db u e = none then 1 else 0)) := by
  cases hfm : findMark db u e with
  | none =>
      have hnew : findMark { db with user_watched := db.user_watched ++ [⟨u, e, some now⟩] } u e
          = some ⟨u, e, some now⟩ := by
        have hl : db.user_watched.find? (fun w => w.user_id == u && w.episode_id == e) = none := hfm
        simp [findMark, List.find?_append, hl]
      refine ⟨fun _ => ⟨?_, ?_⟩, fun h => ?_, ?_, ?_⟩
      · simp [toggleEpisode, hfm]
      · simp only [toggleEpisode, hfm]
        exact hnew
      · simp [isWatched, hfm] at h
      · simp only [toggleEpisode, hfm, isWatched]
        rw [hnew]
        rfl
      · simp [toggleEpisode, hfm]
  | some row =>
      have hfm' : db.user_watched.find? (fun w => w.user_id == u && w.episode_id == e)
          = some row := hfm
      have hkey : (row.user_id == u && row.episode_id == e) = true :=
        @List.find?_some WatchRow (fun w => w.user_id == u && w.episode_id == e) row
          db.user_watched hfm'
      have hu : row.user_id = u := by
        have := (Bool.and_eq_true _ _).mp hkey
        exact eq_of_beq this.1
      have he : row.episode_id = e := by
        have := (Bool.and_eq_true _ _).mp hkey
        exact eq_of_beq this.2
      cases hts : row.watched_at with
      | none =>
          have hset : findMark (setMark db u e (some now)) u e = some ⟨u, e, some now⟩ := by
            rw [findMark_setMark, hfm]
            simp [← hu, ← he]
          refine ⟨fun _ => ⟨?_, ?_⟩, fun h => ?_, ?_, ?_⟩
          · simp [toggleEpisode, hfm, hts]
          · simp only [toggleEpisode, hfm, hts, Option.isSome_none, Bool.false_eq_true,
              if_false]
            exact hset
          · simp [isWatched, hfm, hts] at h
          · simp only [toggleEpisode, hfm, hts, Option.isSome_none, Bool.false_eq_true,
              if_false, isWatched]
            rw [hset]
            rfl
          · simp [toggleEpisode, hfm, hts, setMark]
      | some ts =>
          have hset : findMark (setMark db u e none) u e = some ⟨u, e, none⟩ := by
            rw [findMark_setMark, hfm]
            simp [← hu, ← he]
          refine ⟨fun h => ?_, fun _ => ⟨?_, ?_⟩, ?_, ?_⟩
          · simp [isWatched, hfm, hts] at h
          · simp [toggleEpisode, hfm, hts]
          · simp only [toggleEpisode, hfm, hts, Option.isSome_some, if_true]
            exact hset
          · simp only [toggleEpisode, hfm, hts, Option.isSome_some, if_true, isWatched]
            rw [hset]
            rfl
          · simp [toggleEpisode, hfm, hts, setMark]

/-- C7 witness: in db5 user 1 owns show 10 and episode 100 is watched, so the
toggle returns false and the row keeps its identity with a cleared
timestamp. -/
theorem toggleEpisode_state_machine_witness :
    (toggleEpisode db5 1 100 9).1 = false ∧
    findMark (toggleEpisode db5 1 100 9).2 1 100 = some ⟨1, 100, none⟩ :=
  (toggleEpisode_state_machine db5 1 100 9 ⟨10, by decide, by decide⟩).2.1 (by decide)

/-- C10 witness: user 1 owns nothing in the empty store, so show 5 is
Forbidden there (not NotFound, although no shows row exists); with a link
but no shows row the result is NotFound. -/
theorem getShowDetail_ownership_before_existence_witness :
    getShowDetail DB.empty 1 5 = .forbidden ∧
    getShowDetail dbLinkNoShow 1 5 = .notFound :=
  ⟨(getShowDetail_ownership_before_existence DB.empty 1 5).1 (by decide),
    (getShowDetail_ownership_before_existence dbLinkNoShow 1 5).2.1 (by decide) (by decide)⟩

/-- Catalogue stubs for concrete instantiations of the POST /add handler. -/
def noShowById : Nat → Option ShowObj := fun _ => none

def searchNone : String → Option (List SearchResult) := fun _ => some []

def searchTwo : String → Option (List SearchResult) :=
  fun _ => some [⟨⟨1, "A", none, none⟩⟩, ⟨⟨2, "B", none, none⟩⟩]

def searchOne : String → Option (List SearchResult) := fun _ => some [⟨⟨3, "C", none, none⟩⟩]

def fetchEmpty : Nat → Option (List EpInput) := fun _ => some []

/-- C8: the free-text branch of POST /add (no showId selection): an empty or
whitespace-only name is InvalidInput with no write; zero search results is
NotFound with no write; two or more results returns the full candidate list
with no write; exactly one result adds that show to the callers library. -/
theorem resolveAndAdd_cases (db : DB) (uid : Nat) (q : Option String)
    (g : Nat → Option ShowObj) (search : String → Option (List SearchResult))
    (fetch : Nat → Option (List EpInput)) :
    (jsTrim (q.getD "") = "" →
      postAdd db uid q none g search fetch = (.invalidInput, db)) ∧
    (jsTrim (q.getD "") ≠ "" → search (jsTrim (q.getD "")) = some [] →
      postAdd db uid q none g search fetch = (.notFound, db)) ∧
    (∀ rs, jsTrim (q.getD "") ≠ "" → search (jsTrim (q.getD "")) = some rs →
      2 ≤ rs.length →
      postAdd db uid q none g search fetch = (.candidates rs, db)) ∧
    (∀ r eps, jsTrim (q.getD "") ≠ "" → search (jsTrim (q.getD "")) = some [r] →
      fetch r.showObj.id = some eps →
      postAdd db uid q none g search fetch
        = (.added r.showObj.id, (addShowToUserLibrary db r.showObj (some eps) uid).2)) := by
  refine ⟨?_, ?_, ?_, ?_⟩
  · intro h
    simp [postAdd, h]
  · intro h hs
    simp [postAdd, h, hs]
  · intro rs h hs hlen
    match rs, hlen with
    | a :: b :: rest, _ => simp [postAdd, h, hs]
  · intro r eps h hs hf
    simp [postAdd, h, hs, hf, addShowToUserLibrary]

/-- C8 witness: the four branches exercised on concrete inputs: a
whitespace-only name, a name with zero matches, one with two matches, and
one with a unique match that is added. -/
theorem resolveAndAdd_cases_witness :
    postAdd DB.empty 4 (some "   ") none noShowById searchNone fetchEmpty
      = (.invalidInput, DB.empty) ∧
    postAdd DB.empty 4 (some "x") none noShowById searchNone fetchEmpty
      = (.notFound, DB.empty) ∧
    postAdd DB.empty 4 (some "x") none noShowById searchTwo fetchEmpty
      = (.candidates [⟨⟨1, "A", none, none⟩⟩, ⟨⟨2, "B", none, none⟩⟩], DB.empty) ∧
    postAdd DB.empty 4 (some "x") none noShowById searchOne fetchEmpty
      = (.added 3, (addShowToUserLibrary DB.empty ⟨3, "C", none, none⟩ (some []) 4).2) :=
  ⟨(resolveAndAdd_cases DB.empty 4 (some "   ") noShowById searchNone fetchEmpty).1
      (by decide),
    (resolveAndAdd_cases DB.empty 4 (some "x") noShowById searchNone fetchEmpty).2.1
      (by decide) rfl,
    (resolveAndAdd_cases DB.empty 4 (some "x") noShowById searchTwo fetchEmpty).2.2.1
      _ (by decide) rfl (by decide),
    (resolveAndAdd_cases DB.empty 4 (some "x") noShowById searchOne fetchEmpty).2.2.2
      _ _ (by decide) rfl rfl⟩

/-- The watched flag of the LEFT JOIN, keyed by episode id. -/
def watchedId (marks : List WatchRow) (u a : Nat) : Bool :=
  match marks.find? (fun w => w.user_id == u && w.episode_id == a) with
  | some w => w.watched_at.isSome
  | none => false

/-- The spec-side watched count: the number of the users WatchMark rows with
non-null timestamp whose episode is one of the shows episodes. -/
def specWatchedCount (db : DB) (u sid : Nat) : Nat :=
  (db.user_watched.filter (fun w =>
    (w.user_id == u && w.watched_at.isSome)
      && (showEpisodeIds db sid).contains w.episode_id)).length

/-- countP distributes over a disjunction of pointwise-disjoint predicates. -/
theorem countP_or_disjoint {α : Type} (p q : α → Bool) (l : List α)
    (h : ∀ x, ¬(p x = true ∧ q x = true)) :
    l.countP (fun x => p x || q x) = l.countP p + l.countP q := by
  induction l with
  | nil => rfl
  | cons x xs ih =>
      by_cases hp : p x = true
      · have hq : q x = false := by
          cases hqq : q x
          · rfl
          · exact absurd ⟨hp, hqq⟩ (h x)
        simp [List.countP_cons, hp, hq, ih]
        omega
      · have hp' : p x = false := by
          cases hpp : p x
          · rfl
          · exact absurd hpp hp
        by_cases hq : q x = true
        · simp [List.countP_cons, hp', hq, ih]
          omega
        · have hq' : q x = false := by
            cases hqq : q x
            · rfl
            · exact absurd hqq hq
          simp [List.countP_cons, hp', hq', ih]

/-- With primary-key-unique marks, the rows matching one (user, episode) key
with a non-null timestamp number exactly one when the LEFT JOIN flag is set
and zero otherwise. -/
theorem countP_mark_key (marks : List WatchRow) (u a : Nat)
    (h : (marks.map (fun w => (w.user_id, w.episode_id))).Nodup) :
    marks.countP (fun w => (w.user_id == u && w.episode_id == a) && w.watched_at.isSome)
      = if watchedId marks u a then 1 else 0 := by
  induction marks with
  | nil => rfl
  | cons x xs ih =>
      rw [List.map_cons, List.nodup_cons] at h
      by_cases hk : (x.user_id == u && x.episode_id == a) = true
      · have hux : x.user_id = u := eq_of_beq ((Bool.and_eq_true _ _).mp hk).1
        have hea : x.episode_id = a := eq_of_beq ((Bool.and_eq_true _ _).mp hk).2
        have htail : xs.countP
            (fun w => (w.user_id == u && w.episode_id == a) && w.watched_at.isSome) = 0 := by
          rw [List.countP_eq_zero]
          intro w hw hpw
          have hkw := ((Bool.and_eq_true _ _).mp hpw).1
          have h1 : w.user_id = u := eq_of_beq ((Bool.and_eq_true _ _).mp hkw).1
          have h2 : w.episode_id = a := eq_of_beq ((Bool.and_eq_true _ _).mp hkw).2
          apply h.1
          have : (w.user_id, w.episode_id) ∈ xs.map (fun w => (w.user_id, w.episode_id)) :=
            List.mem_map_of_mem _ hw
          rwa [h1, h2, ← hux, ← hea] at this
        have hwid : watchedId (x :: xs) u a = x.watched_at.isSome := by
          have hf : List.find? (fun w => w.user_id == u && w.episode_id == a) (x :: xs)
              = some x := List.find?_cons_of_pos _ hk
          unfold watchedId
          rw [hf]
        cases hs : x.watched_at.isSome
        · have hneg : ¬ ((x.user_id == u && x.episode_id == a) && x.watched_at.isSome)
              = true := by
            rw [hk, hs]
            exact Bool.false_ne_true
          rw [List.countP_cons_of_neg (fun w : WatchRow =>
            (w.user_id == u && w.episode_id == a) && w.watched_at.isSome) _ hneg,
            htail, hwid, hs]
          rfl
        · have hpos2 : ((x.user_id == u && x.episode_id == a) && x.watched_at.isSome)
              = true := by
            rw [hk, hs]
            rfl
          rw [List.countP_cons_of_pos (fun w : WatchRow =>
            (w.user_id == u && w.episode_id == a) && w.watched_at.isSome) _ hpos2,
            htail, hwid, hs]
          rfl
      · have hk' : (x.user_id == u && x.episode_id == a) = false := by
          cases hkk : (x.user_id == u && x.episode_id == a)
          · rfl
          · exact absurd hkk hk
        have hwid : watchedId (x :: xs) u a = watchedId xs u a := by
          have hf : List.find? (fun w => w.user_id == u && w.episode_id == a) (x :: xs)
              = List.find? (fun w => w.user_id == u && w.episode_id == a) xs :=
            List.find?_cons_of_neg _ hk
          unfold watchedId
          rw [hf]
        have hneg : ¬ ((x.user_id == u && x.episode_id == a) && x.watched_at.isSome)
            = true := by
          rw [hk']
          exact Bool.false_ne_true
        rw [List.countP_cons_of_neg (fun w : WatchRow => (w.user_id == u && w.episode_id == a) && w.watched_at.isSome) _ hneg, hwid]
        exact ih h.2

/-- Counting the users non-null marks over a duplicate-free id list equals
counting the ids whose LEFT JOIN flag is set. -/
theorem countP_marks_eq_countIds (marks : List WatchRow) (u : Nat) (ids : List Nat)
    (hids : ids.Nodup)
    (hm : (marks.map (fun w => (w.user_id, w.episode_id))).Nodup) :
    marks.countP (fun w => (w.user_id == u && w.watched_at.isSome)
        && ids.contains w.episode_id)
      = ids.countP (fun a => watchedId marks u a) := by
  induction ids with
  | nil => simp
  | cons a rest ih =>
      rw [List.nodup_cons] at hids
      have hsplit : marks.countP (fun w => (w.user_id == u && w.watched_at.isSome)
            && (a :: rest).contains w.episode_id)
          = marks.countP (fun w => (w.user_id == u && w.watched_at.isSome)
              && w.episode_id == a)
            + marks.countP (fun w => (w.user_id == u && w.watched_at.isSome)
              && rest.contains w.episode_id) := by
        rw [← countP_or_disjoint (fun w => (w.user_id == u && w.watched_at.isSome)
            && w.episode_id == a)
          (fun w => (w.user_id == u && w.watched_at.isSome) && rest.contains w.episode_id)
          marks]
        · apply List.countP_congr
          intro w hw
          rw [List.contains_cons, Bool.and_or_distrib_left]
        · intro w hw
          have h1 : w.episode_id = a := eq_of_beq ((Bool.and_eq_true _ _).mp hw.1).2
          have h2 : w.episode_id ∈ rest := by
            have := ((Bool.and_eq_true _ _).mp hw.2).2
            simpa using this
          exact hids.1 (h1 ▸ h2)
      rw [hsplit, List.countP_cons]
      have hre : marks.countP (fun w => (w.user_id == u && w.watched_at.isSome)
            && w.episode_id == a)
          = marks.countP (fun w => (w.user_id == u && w.episode_id == a)
            && w.watched_at.isSome) := by
        apply List.countP_congr
        intro w hw
        simp only [Bool.and_eq_true]
        constructor
        · intro hx
          exact ⟨⟨hx.1.1, hx.2⟩, hx.1.2⟩
        · intro hx
          exact ⟨⟨hx.1.1, hx.2⟩, hx.1.2⟩
      rw [hre, countP_mark_key marks u a hm, ih hids.2, Nat.add_comm]

/-- The integer percentage of the source equals round-half-up of
watched / total * 100 over the exact rationals. -/
theorem jsRoundPct_eq_round (w t : Nat) (ht : 0 < t) :
    (jsRoundPct w t : ℤ) = round ((w : ℚ) / (t : ℚ) * 100) := by
  have htq : (t : ℚ) ≠ 0 := by positivity
  have hx : (w : ℚ) / (t : ℚ) * 100 + 1 / 2
      = ((200 * w + t : ℕ) : ℚ) / ((2 * t : ℕ) : ℚ) := by
    push_cast
    field_simp
    ring
  have hnn : (0 : ℚ) ≤ ((200 * w + t : ℕ) : ℚ) / ((2 * t : ℕ) : ℚ) := by positivity
  rw [round_eq, hx, ← Int.natCast_floor_eq_floor hnn, Nat.floor_div_nat, Nat.floor_natCast]
  rfl

/-- C9: for a show in the users library the detail page reports
total = the number of episodes rows of the show, watched = the number of the
users non-null WatchMarks among those episodes, and a percentage that is 0
for an episode-less show and otherwise round(watched / total * 100). -/
theorem progress_correct (db : DB) (u sid : Nat) (s : ShowRow)
    (hlink : linkExists db u sid = true)
    (hfind : db.shows.find? (fun r => r.id == sid) = some s)
    (hE : (db.episodes.map (fun e => e.id)).Nodup)
    (hW : (db.user_watched.map (fun w => (w.user_id, w.episode_id))).Nodup) :
    ∃ pct : Nat,
      getShowDetail db u sid
        = .ok s (db.episodes.countP (fun e => e.show_id == sid))
            (specWatchedCount db u sid) pct ∧
      (db.episodes.countP (fun e => e.show_id == sid) = 0 → pct = 0) ∧
      (0 < db.episodes.countP (fun e => e.show_id == sid) →
        (pct : ℤ) = round ((specWatchedCount db u sid : ℚ)
          / (db.episodes.countP (fun e => e.show_id == sid) : ℚ) * 100)) := by
  have htotal : (db.episodes.filter (fun e => e.show_id == sid)).length
      = db.episodes.countP (fun e => e.show_id == sid) :=
    (List.countP_eq_length_filter _ _).symm
  have hids : (showEpisodeIds db sid).Nodup := by
    have hsub : List.Sublist
        ((db.episodes.filter (fun e => e.show_id == sid)).map (fun e => e.id))
        (db.episodes.map (fun e => e.id)) :=
      List.Sublist.map _ (List.filter_sublist _)
    exact List.Nodup.sublist hsub hE
  have hwatched : ((db.episodes.filter (fun e => e.show_id == sid)).filter
        (watchedFlag db u)).length
      = specWatchedCount db u sid := by
    have h1 : ((db.episodes.filter (fun e => e.show_id == sid)).filter
          (watchedFlag db u)).length
        = (db.episodes.filter (fun e => e.show_id == sid)).countP
            (fun e => watchedId db.user_watched u e.id) :=
      (List.countP_eq_length_filter _ _).symm
    have h2 : (db.episodes.filter (fun e => e.show_id == sid)).countP
          (fun e => watchedId db.user_watched u e.id)
        = ((db.episodes.filter (fun e => e.show_id == sid)).map (fun e => e.id)).countP
            (fun a => watchedId db.user_watched u a) := by
      rw [List.countP_map]
      rfl
    have h3 : ((db.episodes.filter (fun e => e.show_id == sid)).map (fun e => e.id)).countP
          (fun a => watchedId db.user_watched u a)
        = db.user_watched.countP (fun w => (w.user_id == u && w.watched_at.isSome)
            && (showEpisodeIds db sid).contains w.episode_id) :=
      (countP_marks_eq_countIds db.user_watched u (showEpisodeIds db sid) hids hW).symm
    have h4 : db.user_watched.countP (fun w => (w.user_id == u && w.watched_at.isSome)
          && (showEpisodeIds db sid).contains w.episode_id)
        = specWatchedCount db u sid := List.countP_eq_length_filter _ _
    exact h1.trans (h2.trans (h3.trans h4))
  have hget : getShowDetail db u sid
      = .ok s (db.episodes.filter (fun e => e.show_id == sid)).length
          ((db.episodes.filter (fun e => e.show_id == sid)).filter (watchedFlag db u)).length
          (if (db.episodes.filter (fun e => e.show_id == sid)).length == 0 then 0
            else jsRoundPct
              ((db.episodes.filter (fun e => e.show_id == sid)).filter
                (watchedFlag db u)).length
              (db.episodes.filter (fun e => e.show_id == sid)).length) := by
    unfold getShowDetail
    rw [hlink, hfind]
    rfl
  refine ⟨if (db.episodes.filter (fun e => e.show_id == sid)).length == 0 then 0
    else jsRoundPct
      ((db.episodes.filter (fun e => e.show_id == sid)).filter (watchedFlag db u)).length
      (db.episodes.filter (fun e => e.show_id == sid)).length, ?_, ?_, ?_⟩
  · rw [hget, htotal, hwatched]
  · intro h0
    rw [htotal, hwatched]
    simp [h0]
  · intro hpos
    rw [htotal, hwatched]
    have hne : db.episodes.countP (fun e => e.show_id == sid) ≠ 0 :=
      Nat.pos_iff_ne_zero.mp hpos
    simp only [beq_eq_false_iff_ne, ne_eq, hne, not_false_eq_true, if_neg,
      beq_iff_eq, if_false]
    exact jsRoundPct_eq_round _ _ hpos

/-- C9 witness: in db5 (show 10 with one episode, watched by user 1), the
detail page of user 1 reports total 1, watched 1 and the rounded
percentage. -/
theorem progress_correct_witness :
    ∃ pct : Nat,
      getShowDetail db5 1 10
        = .ok ⟨10, "S", none, none⟩ (db5.episodes.countP (fun e => e.show_id == 10))
            (specWatchedCount db5 1 10) pct ∧
      (db5.episodes.countP (fun e => e.show_id == 10) = 0 → pct = 0) ∧
      (0 < db5.episodes.countP (fun e => e.show_id == 10) →
        (pct : ℤ) = round ((specWatchedCount db5 1 10 : ℚ)
          / (db5.episodes.countP (fun e => e.show_id == 10) : ℚ) * 100)) :=
  progress_correct db5 1 10 ⟨10, "S", none, none⟩ (by decide) (by decide)
    (by decide) (by decide)

/-- A predicate met only by rows of one primary key counts exactly one row in
a key-unique table in which it has a match. -/
theorem countP_key_unique {α β : Type} (k : α → β) (p : α → Bool) :
    ∀ l : List α, (∀ x y, p x = true → p y = true → k x = k y) →
    (l.map k).Nodup → l.any p = true → l.countP p = 1 := by
  intro l hcons
  induction l with
  | nil =>
      intro _ hany
      simp at hany
  | cons a t ih =>
      intro hnd hany
      rw [List.map_cons, List.nodup_cons] at hnd
      by_cases hpa : p a = true
      · rw [List.countP_cons_of_pos _ _ hpa]
        have ht : t.countP p = 0 := by
          rw [List.countP_eq_zero]
          intro y hy hpy
          exact hnd.1 (hcons y a hpy hpa ▸ List.mem_map_of_mem k hy)
        rw [ht]
      · have hpa' : p a = false := by
          cases hp2 : p a
          · rfl
          · exact absurd hp2 hpa
        rw [List.countP_cons_of_neg _ _ (by rw [hpa']; exact Bool.false_ne_true)]
        apply ih hnd.2
        rcases List.any_eq_true.mp hany with ⟨x, hx, hpx⟩
        rcases List.mem_cons.mp hx with rfl | hxt
        · exact absurd hpx hpa
        · exact List.any_eq_true.mpr ⟨x, hxt, hpx⟩

theorem insertShow_self (db : DB) (r : ShowRow) :
    showIdExists (insertShowOrIgnore db r) r.id = true := by
  unfold insertShowOrIgnore
  by_cases h : showIdExists db r.id = true
  · rw [if_pos h]
    exact h
  · rw [if_neg h]
    simp [showIdExists]

theorem insertShow_noop (db : DB) (r : ShowRow) (h : showIdExists db r.id = true) :
    insertShowOrIgnore db r = db := by
  unfold insertShowOrIgnore
  rw [if_pos h]

theorem insertShow_rest (db : DB) (r : ShowRow) :
    (insertShowOrIgnore db r).episodes = db.episodes ∧
    (insertShowOrIgnore db r).user_shows = db.user_shows ∧
    (insertShowOrIgnore db r).user_watched = db.user_watched := by
  unfold insertShowOrIgnore
  split
  · exact ⟨rfl, rfl, rfl⟩
  · exact ⟨rfl, rfl, rfl⟩

theorem insertShow_nodup (db : DB) (r : ShowRow)
    (h : (db.shows.map (fun x => x.id)).Nodup) :
    ((insertShowOrIgnore db r).shows.map (fun x => x.id)).Nodup := by
  unfold insertShowOrIgnore
  by_cases hx : showIdExists db r.id = true
  · rw [if_pos hx]
    exact h
  · rw [if_neg hx]
    have hmem : r.id ∉ db.shows.map (fun x => x.id) := by
      intro hc
      apply hx
      rcases List.mem_map.mp hc with ⟨y, hy, hid⟩
      exact List.any_eq_true.mpr ⟨y, hy, by rw [hid]; simp⟩
    simp [List.nodup_append, h, hmem]

theorem insertEp_self (db : DB) (r : EpisodeRow) :
    epIdExists (insertEpisodeOrIgnore db r) r.id = true := by
  unfold insertEpisodeOrIgnore
  by_cases h : epIdExists db r.id = true
  · rw [if_pos h]
    exact h
  · rw [if_neg h]
    simp [epIdExists]

theorem insertEp_mono (db : DB) (r : EpisodeRow) (c : Nat) (h : epIdExists db c = true) :
    epIdExists (insertEpisodeOrIgnore db r) c = true := by
  unfold insertEpisodeOrIgnore
  by_cases hx : epIdExists db r.id = true
  · rw [if_pos hx]
    exact h
  · rw [if_neg hx]
    simp only [epIdExists] at h ⊢
    rw [List.any_append, h]
    rfl

theorem insertEp_noop (db : DB) (r : EpisodeRow) (h : epIdExists db r.id = true) :
    insertEpisodeOrIgnore db r = db := by
  unfold insertEpisodeOrIgnore
  rw [if_pos h]

theorem insertEp_rest (db : DB) (r : EpisodeRow) :
    (insertEpisodeOrIgnore db r).shows = db.shows ∧
    (insertEpisodeOrIgnore db r).user_shows = db.user_shows ∧
    (insertEpisodeOrIgnore db r).user_watched = db.user_watched := by
  unfold insertEpisodeOrIgnore
  split
  · exact ⟨rfl, rfl, rfl⟩
  · exact ⟨rfl, rfl, rfl⟩

theorem insertEp_nodup (db : DB) (r : EpisodeRow)
    (h : (db.episodes.map (fun x => x.id)).Nodup) :
    ((insertEpisodeOrIgnore db r).episodes.map (fun x => x.id)).Nodup := by
  unfold insertEpisodeOrIgnore
  by_cases hx : epIdExists db r.id = true
  · rw [if_pos hx]
    exact h
  · rw [if_neg hx]
    have hmem : r.id ∉ db.episodes.map (fun x => x.id) := by
      intro hc
      apply hx
      rcases List.mem_map.mp hc with ⟨y, hy, hid⟩
      exact List.any_eq_true.mpr ⟨y, hy, by rw [hid]; simp⟩
    simp [List.nodup_append, h, hmem]

theorem insertLink_self (db : DB) (u sid : Nat) :
    linkExists (insertUserShowOrIgnore db u sid) u sid = true := by
  unfold insertUserShowOrIgnore
  by_cases h : linkExists db u sid = true
  · rw [if_pos h]
    exact h
  · rw [if_neg h]
    simp [linkExists]

theorem insertLink_mono (db : DB) (u sid a b : Nat) (h : linkExists db a b = true) :
    linkExists (insertUserShowOrIgnore db u sid) a b = true := by
  unfold insertUserShowOrIgnore
  by_cases hx : linkExists db u sid = true
  · rw [if_pos hx]
    exact h
  · rw [if_neg hx]
    simp only [linkExists] at h ⊢
    rw [List.any_append, h]
    rfl

theorem insertLink_noop (db : DB) (u sid : Nat) (h : linkExists db u sid = true) :
    insertUserShowOrIgnore db u sid = db := by
  unfold insertUserShowOrIgnore
  rw [if_pos h]

theorem insertLink_rest (db : DB) (u sid : Nat) :
    (insertUserShowOrIgnore db u sid).shows = db.shows ∧
    (insertUserShowOrIgnore db u sid).episodes = db.episodes ∧
    (insertUserShowOrIgnore db u sid).user_watched = db.user_watched := by
  unfold insertUserShowOrIgnore
  split
  · exact ⟨rfl, rfl, rfl⟩
  · exact ⟨rfl, rfl, rfl⟩

theorem insertLink_nodup (db : DB) (u sid : Nat)
    (h : (db.user_shows.map (fun l => (l.user_id, l.show_id))).Nodup) :
    ((insertUserShowOrIgnore db u sid).user_shows.map
      (fun l => (l.user_id, l.show_id))).Nodup := by
  unfold insertUserShowOrIgnore
  by_cases hx : linkExists db u sid = true
  · rw [if_pos hx]
    exact h
  · rw [if_neg hx]
    have hmem : (u, sid) ∉ db.user_shows.map (fun l => (l.user_id, l.show_id)) := by
      intro hc
      apply hx
      rcases List.mem_map.mp hc with ⟨y, hy, hid⟩
      refine List.any_eq_true.mpr ⟨y, hy, ?_⟩
      have h1 : y.user_id = u := congrArg Prod.fst hid
      have h2 : y.show_id = sid := congrArg Prod.snd hid
      rw [h1, h2]
      simp
    simp [List.nodup_append, h, hmem]

theorem insertLink_shape (db : DB) (u sid : Nat) :
    (insertUserShowOrIgnore db u sid).user_shows = db.user_shows ∨
    (insertUserShowOrIgnore db u sid).user_shows = db.user_shows ++ [⟨u, sid⟩] := by
  unfold insertUserShowOrIgnore
  split
  · exact Or.inl rfl
  · exact Or.inr rfl

theorem insertEpisodes_rest (sid : Nat) (eps : List EpInput) :
    ∀ db : DB, (insertEpisodes db sid eps).shows = db.shows ∧
      (insertEpisodes db sid eps).user_shows = db.user_shows ∧
      (insertEpisodes db sid eps).user_watched = db.user_watched := by
  induction eps with
  | nil =>
      intro db
      exact ⟨rfl, rfl, rfl⟩
  | cons e t ih =>
      intro db
      have hstep : insertEpisodes db sid (e :: t)
          = insertEpisodes (insertEpisodeOrIgnore db (epRowOf sid e)) sid t := rfl
      rw [hstep]
      have h1 := ih (insertEpisodeOrIgnore db (epRowOf sid e))
      have h2 := insertEp_rest db (epRowOf sid e)
      exact ⟨h1.1.trans h2.1, h1.2.1.trans h2.2.1, h1.2.2.trans h2.2.2⟩

theorem insertEpisodes_mono (sid c : Nat) (eps : List EpInput) :
    ∀ db : DB, epIdExists db c = true → epIdExists (insertEpisodes db sid eps) c = true := by
  induction eps with
  | nil =>
      intro db h
      exact h
  | cons e t ih =>
      intro db h
      exact ih _ (insertEp_mono db (epRowOf sid e) c h)

theorem insertEpisodes_mem (sid : Nat) (eps : List EpInput) :
    ∀ db : DB, ∀ ep ∈ eps, epIdExists (insertEpisodes db sid eps) ep.id = true := by
  induction eps with
  | nil =>
      intro db ep hep
      simp at hep
  | cons e t ih =>
      intro db ep hep
      rcases List.mem_cons.mp hep with rfl | hmem
      · exact insertEpisodes_mono sid ep.id t _ (insertEp_self db (epRowOf sid ep))
      · exact ih _ ep hmem

theorem insertEpisodes_noop (sid : Nat) (eps : List EpInput) :
    ∀ db : DB, (∀ ep ∈ eps, epIdExists db ep.id = true) → insertEpisodes db sid eps = db := by
  induction eps with
  | nil =>
      intro db _
      rfl
  | cons e t ih =>
      intro db h
      have he : insertEpisodeOrIgnore db (epRowOf sid e) = db :=
        insertEp_noop db _ (h e (List.mem_cons_self e t))
      have hstep : insertEpisodes db sid (e :: t)
          = insertEpisodes (insertEpisodeOrIgnore db (epRowOf sid e)) sid t := rfl
      rw [hstep, he]
      exact ih db (fun ep hep => h ep (List.mem_cons_of_mem e hep))

theorem insertEpisodes_nodup (sid : Nat) (eps : List EpInput) :
    ∀ db : DB, (db.episodes.map (fun x => x.id)).Nodup →
      ((insertEpisodes db sid eps).episodes.map (fun x => x.id)).Nodup := by
  induction eps with
  | nil =>
      intro db h
      exact h
  | cons e t ih =>
      intro db h
      exact ih _ (insertEp_nodup db (epRowOf sid e) h)

/-- The store after one completed add/sync call. -/
def addOnce (db : DB) (s : ShowObj) (eps : List EpInput) (u : Nat) : DB :=
  (addShowToUserLibrary db s (some eps) u).2

/-- C4: adding the same external show twice (same or different users, with the
same fetched episode list) raises no error, leaves the shows, episodes and
user_watched tables of the first run untouched, at most appends the second
users link, is a strict no-op when the user is the same, and yields exactly
one shows row for the external id, one episodes row per external episode id
and one user_shows row per (user, show) pair. -/
theorem addShow_idempotent (db : DB) (s : ShowObj) (eps : List EpInput) (u1 u2 : Nat)
    (hS : (db.shows.map (fun x => x.id)).Nodup)
    (hEp : (db.episodes.map (fun x => x.id)).Nodup)
    (hL : (db.user_shows.map (fun l => (l.user_id, l.show_id))).Nodup) :
    (addShowToUserLibrary db s (some eps) u1).1 = true ∧
    (addShowToUserLibrary (addOnce db s eps u1) s (some eps) u2).1 = true ∧
    (addShowToUserLibrary (addOnce db s eps u1) s (some eps) u2).2.shows
      = (addOnce db s eps u1).shows ∧
    (addShowToUserLibrary (addOnce db s eps u1) s (some eps) u2).2.episodes
      = (addOnce db s eps u1).episodes ∧
    (addShowToUserLibrary (addOnce db s eps u1) s (some eps) u2).2.user_watched
      = (addOnce db s eps u1).user_watched ∧
    ((addShowToUserLibrary (addOnce db s eps u1) s (some eps) u2).2.user_shows
        = (addOnce db s eps u1).user_shows ∨
      (addShowToUserLibrary (addOnce db s eps u1) s (some eps) u2).2.user_shows
        = (addOnce db s eps u1).user_shows ++ [⟨u2, s.id⟩]) ∧
    (u2 = u1 → (addShowToUserLibrary (addOnce db s eps u1) s (some eps) u2).2
      = addOnce db s eps u1) ∧
    (addShowToUserLibrary (addOnce db s eps u1) s (some eps) u2).2.shows.countP
      (fun r => r.id == s.id) = 1 ∧
    (∀ ep ∈ eps,
      (addShowToUserLibrary (addOnce db s eps u1) s (some eps) u2).2.episodes.countP
        (fun r => r.id == ep.id) = 1) ∧
    (addShowToUserLibrary (addOnce db s eps u1) s (some eps) u2).2.user_shows.countP
      (fun l => l.user_id == u1 && l.show_id == s.id) = 1 ∧
    (addShowToUserLibrary (addOnce db s eps u1) s (some eps) u2).2.user_shows.countP
      (fun l => l.user_id == u2 && l.show_id == s.id) = 1 := by
  have hA : showIdExists (insertShowOrIgnore db (showRowOf s)) (showRowOf s).id = true :=
    insertShow_self db (showRowOf s)
  have hshowsE : (insertEpisodes (insertShowOrIgnore db (showRowOf s)) s.id eps).shows
      = (insertShowOrIgnore db (showRowOf s)).shows :=
    (insertEpisodes_rest s.id eps _).1
  have hfirst : addOnce db s eps u1
      = insertUserShowOrIgnore (insertEpisodes (insertShowOrIgnore db (showRowOf s)) s.id eps)
          u1 s.id := rfl
  have hshows1 : (addOnce db s eps u1).shows
      = (insertShowOrIgnore db (showRowOf s)).shows := by
    rw [hfirst, (insertLink_rest _ u1 s.id).1, hshowsE]
  have heps1 : (addOnce db s eps u1).episodes
      = (insertEpisodes (insertShowOrIgnore db (showRowOf s)) s.id eps).episodes := by
    rw [hfirst, (insertLink_rest _ u1 s.id).2.1]
  have hSd1 : showIdExists (addOnce db s eps u1) s.id = true := by
    unfold showIdExists
    rw [hshows1]
    exact hA
  have hnoopS : insertShowOrIgnore (addOnce db s eps u1) (showRowOf s)
      = addOnce db s eps u1 :=
    insertShow_noop _ _ hSd1
  have hepsE : ∀ ep ∈ eps,
      epIdExists (insertEpisodes (insertShowOrIgnore db (showRowOf s)) s.id eps) ep.id
        = true :=
    insertEpisodes_mem s.id eps _
  have heps1' : ∀ ep ∈ eps, epIdExists (addOnce db s eps u1) ep.id = true := by
    intro ep hep
    unfold epIdExists
    rw [heps1]
    exact hepsE ep hep
  have hnoopE : insertEpisodes (addOnce db s eps u1) s.id eps = addOnce db s eps u1 :=
    insertEpisodes_noop s.id eps _ heps1'
  have hl1 : linkExists (addOnce db s eps u1) u1 s.id = true := by
    rw [hfirst]
    exact insertLink_self _ u1 s.id
  have hsecond : (addShowToUserLibrary (addOnce db s eps u1) s (some eps) u2).2
      = insertUserShowOrIgnore (addOnce db s eps u1) u2 s.id := by
    show insertUserShowOrIgnore
        (insertEpisodes (insertShowOrIgnore (addOnce db s eps u1) (showRowOf s)) s.id eps)
        u2 s.id
      = insertUserShowOrIgnore (addOnce db s eps u1) u2 s.id
    rw [hnoopS, hnoopE]
  have hnodupS1 : ((addOnce db s eps u1).shows.map (fun x => x.id)).Nodup := by
    rw [hshows1]
    exact insertShow_nodup db (showRowOf s) hS
  have hnodupE1 : ((addOnce db s eps u1).episodes.map (fun x => x.id)).Nodup := by
    rw [heps1]
    apply insertEpisodes_nodup
    rw [(insertShow_rest db (showRowOf s)).1]
    exact hEp
  have hnodupL1 : ((addOnce db s eps u1).user_shows.map
      (fun l => (l.user_id, l.show_id))).Nodup := by
    rw [hfirst]
    apply insertLink_nodup
    rw [(insertEpisodes_rest s.id eps _).2.1, (insertShow_rest db (showRowOf s)).2.1]
    exact hL
  refine ⟨rfl, rfl, ?_, ?_, ?_, ?_, ?_, ?_, ?_, ?_, ?_⟩
  · rw [hsecond]
    exact (insertLink_rest _ u2 s.id).1
  · rw [hsecond]
    exact (insertLink_rest _ u2 s.id).2.1
  · rw [hsecond]
    exact (insertLink_rest _ u2 s.id).2.2
  · rw [hsecond]
    exact insertLink_shape _ u2 s.id
  · intro h
    rw [hsecond, h]
    exact insertLink_noop _ u1 s.id hl1
  · rw [hsecond, (insertLink_rest _ u2 s.id).1]
    apply countP_key_unique (fun x : ShowRow => x.id) (fun r => r.id == s.id)
    · intro x y hx hy
      exact (eq_of_beq hx).trans (eq_of_beq hy).symm
    · exact hnodupS1
    · exact hSd1
  · intro ep hep
    rw [hsecond, (insertLink_rest _ u2 s.id).2.1]
    apply countP_key_unique (fun x : EpisodeRow => x.id) (fun r => r.id == ep.id)
    · intro x y hx hy
      exact (eq_of_beq hx).trans (eq_of_beq hy).symm
    · exact hnodupE1
    · exact heps1' ep hep
  · rw [hsecond]
    apply countP_key_unique (fun l : UserShowRow => (l.user_id, l.show_id))
      (fun l => l.user_id == u1 && l.show_id == s.id)
    · intro x y hx hy
      have hx1 := (Bool.and_eq_true _ _).mp hx
      have hy1 := (Bool.and_eq_true _ _).mp hy
      rw [eq_of_beq hx1.1, eq_of_beq hx1.2, eq_of_beq hy1.1, eq_of_beq hy1.2]
    · exact insertLink_nodup _ u2 s.id hnodupL1
    · exact insertLink_mono _ u2 s.id u1 s.id hl1
  · rw [hsecond]
    apply countP_key_unique (fun l : UserShowRow => (l.user_id, l.show_id))
      (fun l => l.user_id == u2 && l.show_id == s.id)
    · intro x y hx hy
      have hx1 := (Bool.and_eq_true _ _).mp hx
      have hy1 := (Bool.and_eq_true _ _).mp hy
      rw [eq_of_beq hx1.1, eq_of_beq hx1.2, eq_of_beq hy1.1, eq_of_beq hy1.2]
    · exact insertLink_nodup _ u2 s.id hnodupL1
    · exact insertLink_self _ u2 s.id

/-- C4 witness: adding show 3 (one episode, id 30) for user 1 and then again
for user 2 in the empty store yields exactly one shows row for id 3. -/
theorem addShow_idempotent_witness :
    (addShowToUserLibrary
        (addOnce DB.empty ⟨3, "C", none, none⟩ [⟨30, none, none, none, none, none⟩] 1)
        ⟨3, "C", none, none⟩ (some [⟨30, none, none, none, none, none⟩]) 2).2.shows.countP
      (fun r => r.id == 3) = 1 :=
  (addShow_idempotent DB.empty ⟨3, "C", none, none⟩ [⟨30, none, none, none, none, none⟩]
    1 2 (by decide) (by decide) (by decide)).2.2.2.2.2.2.2.1
